import Mathlib

set_option autoImplicit false

/-
Verification development for the sqlengine repository: a shallow embedding of
the value/schema/table/database model (types.h, storage.h/cpp), the lexer
(lexer.h/cpp), the recursive-descent parser (parser.h/cpp), the statement
executor (the interpretive parts of llvm_codegen.cpp) and the orchestrator
(query_engine.cpp), together with theorems settling the specification claims.

Modelling notes, applying throughout:
- C++ int64_t is modelled as Int and double as Rat; no proved claim exercises
  integer overflow or constructs a REAL value, so no wrap-around or IEEE
  rounding is modelled.
- Token source positions (position/line/column fields) are bookkeeping that
  feeds no behaviour and no claim, and are omitted from the Token model.
- The LLVM IR construction and JIT plumbing in llvm_codegen.cpp never write to
  the result vector or the database (the generated select function only
  returns void); only the interpretive statements of the visit methods are
  modelled, as the spec itself scopes native code generation out.
- Recursions that the C++ writes as loops are modelled with an explicit fuel
  parameter; the fuel chosen at each entry point exceeds the number of
  iterations any input can drive, and the fuel-exhaustion branches are
  unreachable there.
-/

namespace SqlEngine

/-- SQL data types: the DataType enum of types.h. The declaration order gives
the enum values that Value.lt compares when the type tags differ. -/
inductive DataType where
  | INTEGER
  | REAL
  | TEXT
  | BOOLEAN
  | NULL_TYPE
deriving DecidableEq, Repr

/-- Numeric value of the C++ enum constant, used for the tag comparison in
Value.lt (C++ compares the enum values directly). -/
def DataType.tag : DataType → Nat
  | .INTEGER => 0
  | .REAL => 1
  | .TEXT => 2
  | .BOOLEAN => 3
  | .NULL_TYPE => 4

/-- Value (types.h): a std::variant over int64_t, double, std::string, bool and
nullptr_t, in that order. -/
inductive Value where
  | intV (i : Int)
  | realV (r : Rat)
  | textV (s : String)
  | boolV (b : Bool)
  | nullV
deriving DecidableEq, Repr

/-- Value::getType (storage.cpp). -/
def Value.getType : Value → DataType
  | .intV _ => .INTEGER
  | .realV _ => .REAL
  | .textV _ => .TEXT
  | .boolV _ => .BOOLEAN
  | .nullV => .NULL_TYPE

/-- Value::isNull (types.h). -/
def Value.isNull : Value → Bool
  | .nullV => true
  | _ => false

/-- Value::operator< (storage.cpp): tag order first, then natural order within
a tag; the default (null vs null) case is false. -/
def Value.lt (a b : Value) : Bool :=
  if a.getType ≠ b.getType then decide (a.getType.tag < b.getType.tag)
  else
    match a, b with
    | .intV x, .intV y => decide (x < y)
    | .realV x, .realV y => decide (x < y)
    | .textV x, .textV y => decide (x < y)
    | .boolV x, .boolV y => !x && y
    | _, _ => false

/-- Column (types.h), with the C++ default member values. -/
structure Column where
  name : String
  type : DataType
  nullable : Bool := true
  primary_key : Bool := false
deriving DecidableEq, Repr

/-- Row (types.h): an ordered sequence of values. -/
abbrev Row := List Value

/-- Schema (types.h): the ordered column sequence together with the
unordered_map from column name to index, modelled as a function. -/
structure Schema where
  columns : List Column := []
  column_index : String → Option Nat := fun _ => none

/-- Schema::addColumn (storage.cpp): records name ↦ current size in the index
map (overwriting any previous binding) and appends the column. -/
def Schema.addColumn (s : Schema) (col : Column) : Schema :=
  { columns := s.columns ++ [col]
    column_index := fun n => if n = col.name then some s.columns.length else s.column_index n }

/-- Table (storage.h): owns its schema and an ordered sequence of rows. -/
structure Table where
  name : String
  schema : Schema
  rows : List Row := []

/-- The per-position check inside Table::validateRow: a non-nullable column
refuses null, and a non-null value's variant must equal the declared type. -/
def validValue (col : Column) (v : Value) : Bool :=
  (col.nullable || !v.isNull) && (v.isNull || decide (v.getType = col.type))

/-- Table::validateRow (storage.cpp): arity check, then the positional
null/type checks. -/
def Table.validateRow (t : Table) (row : Row) : Bool :=
  if row.length ≠ t.schema.columns.length then false
  else (List.zip t.schema.columns row).all fun p => validValue p.1 p.2

/-- Table::insertRow (storage.cpp): appends only when validateRow holds,
otherwise fails and leaves the table unchanged. -/
def Table.insertRow (t : Table) (row : Row) : Except String Table :=
  if t.validateRow row then .ok { t with rows := t.rows ++ [row] }
  else .error "Row validation failed"

/-- Database (storage.h): the unordered_map from table name to table, modelled
as a function. -/
structure Database where
  tables : String → Option Table := fun _ => none

/-- Database::hasTable. -/
def Database.hasTable (db : Database) (name : String) : Bool :=
  (db.tables name).isSome

/-- Database::createTable (storage.cpp): fails when the name is present. -/
def Database.createTable (db : Database) (name : String) (schema : Schema) : Except String Database :=
  if db.hasTable name then .error ("Table already exists: " ++ name)
  else .ok ⟨fun n => if n = name then some ⟨name, schema, []⟩ else db.tables n⟩

/-- Database::dropTable (storage.cpp): erases the entry, a no-op when absent. -/
def Database.dropTable (db : Database) (name : String) : Database :=
  ⟨fun n => if n = name then none else db.tables n⟩

/-- Replacing one table's in-place mutation: the map keeps the name bound to
the updated table. -/
def Database.setTable (db : Database) (name : String) (t : Table) : Database :=
  ⟨fun n => if n = name then some t else db.tables n⟩

/-- TokenType (lexer.h). -/
inductive TokenType where
  | INTEGER_LITERAL
  | REAL_LITERAL
  | STRING_LITERAL
  | BOOLEAN_LITERAL
  | NULL_LITERAL
  | IDENTIFIER
  | SELECT
  | FROM
  | WHERE
  | INSERT
  | INTO
  | VALUES
  | CREATE
  | TABLE
  | DROP
  | UPDATE
  | SET
  | DELETE
  | AND
  | OR
  | NOT
  | TRUE
  | FALSE
  | NULL_KW
  | AS
  | ORDER
  | BY
  | ASC
  | DESC
  | LIMIT
  | INTEGER_TYPE
  | REAL_TYPE
  | TEXT_TYPE
  | BOOLEAN_TYPE
  | EQUAL
  | NOT_EQUAL
  | LESS_THAN
  | LESS_EQUAL
  | GREATER_THAN
  | GREATER_EQUAL
  | PLUS
  | MINUS
  | MULTIPLY
  | DIVIDE
  | LEFT_PAREN
  | RIGHT_PAREN
  | COMMA
  | SEMICOLON
  | DOT
  | EOF_TOKEN
  | INVALID
deriving DecidableEq, Repr

/-- Token (lexer.h), reduced to the fields behaviour depends on; the
position/line/column fields feed only diagnostics no claim mentions. -/
structure Token where
  type : TokenType
  value : String
deriving DecidableEq, Repr

/-- std::isspace in the C locale: space, tab, newline, vertical tab, form
feed, carriage return. -/
def isSpaceC (c : Char) : Bool :=
  c = ' ' || c = '\t' || c = '\n' || c = Char.ofNat 11 || c = Char.ofNat 12 || c = '\r'

/-- Lexer::isDigit (lexer.h). -/
def isDigitC (c : Char) : Bool :=
  '0' ≤ c && c ≤ '9'

/-- Lexer::isAlpha (lexer.h): letters and underscore. -/
def isAlphaC (c : Char) : Bool :=
  ('a' ≤ c && c ≤ 'z') || ('A' ≤ c && c ≤ 'Z') || c = '_'

/-- Lexer::isAlphaNumeric (lexer.h). -/
def isAlphaNumericC (c : Char) : Bool :=
  isAlphaC c || isDigitC c

/-- The static keyword table of lexer.cpp, keyed by the uppercased lexeme. -/
def keywordLookup : String → Option TokenType
  | "SELECT" => some .SELECT
  | "FROM" => some .FROM
  | "WHERE" => some .WHERE
  | "INSERT" => some .INSERT
  | "INTO" => some .INTO
  | "VALUES" => some .VALUES
  | "CREATE" => some .CREATE
  | "TABLE" => some .TABLE
  | "DROP" => some .DROP
  | "UPDATE" => some .UPDATE
  | "SET" => some .SET
  | "DELETE" => some .DELETE
  | "AND" => some .AND
  | "OR" => some .OR
  | "NOT" => some .NOT
  | "TRUE" => some .TRUE
  | "FALSE" => some .FALSE
  | "NULL" => some .NULL_KW
  | "AS" => some .AS
  | "ORDER" => some .ORDER
  | "BY" => some .BY
  | "ASC" => some .ASC
  | "DESC" => some .DESC
  | "LIMIT" => some .LIMIT
  | "INTEGER" => some .INTEGER_TYPE
  | "REAL" => some .REAL_TYPE
  | "TEXT" => some .TEXT_TYPE
  | "BOOLEAN" => some .BOOLEAN_TYPE
  | _ => none

/-- The uppercase conversion applied before the keyword lookup
(std::toupper per character, ASCII). -/
def toUpperString (s : String) : String :=
  String.mk (s.data.map Char.toUpper)

/-- Lexer::skipWhitespace, on the unread remainder of the input. -/
def skipWhitespace : List Char → List Char
  | c :: rest => if isSpaceC c then skipWhitespace rest else c :: rest
  | [] => []

/-- Lexer::skipComment: consumes up to but not including the newline. -/
def skipComment : List Char → List Char
  | c :: rest => if c = '\n' then c :: rest else skipComment rest
  | [] => []

/-- The comment test in Lexer::nextToken: the next two characters are dashes. -/
def commentAhead : List Char → Bool
  | c :: d :: _ => c = '-' && d = '-'
  | _ => false

/-- The escape switch in Lexer::readString; backslash, quote and unrecognized
escapes all pass the character through unchanged, as the C++ cases do. -/
def escapeChar (e : Char) : Char :=
  if e = 'n' then '\n' else if e = 't' then '\t' else if e = 'r' then '\r' else e

/-- The accumulation loop of Lexer::readString, after the opening quote was
consumed: stops at the closing quote or at end of input, handling backslash
escapes when a character follows the backslash. -/
def readStringBody (quote : Char) : List Char → String → String × List Char
  | [], acc => (acc, [])
  | [c], acc =>
      if c = quote then (acc, [c]) else (acc.push c, [])
  | c :: d :: rest, acc =>
      if c = quote then (acc, c :: d :: rest)
      else if c = '\\' then readStringBody quote rest (acc.push (escapeChar d))
      else readStringBody quote (d :: rest) (acc.push c)

/-- Lexer::readString, entered after the opening quote was consumed: reads the
body, then consumes the closing quote when present (unterminated strings keep
the text accumulated so far). -/
def readString (quote : Char) (afterQuote : List Char) : Token × List Char :=
  let (value, rest) := readStringBody quote afterQuote ""
  match rest with
  | c :: rest2 =>
      if c = quote then (⟨.STRING_LITERAL, value⟩, rest2)
      else (⟨.STRING_LITERAL, value⟩, c :: rest2)
  | [] => (⟨.STRING_LITERAL, value⟩, [])

/-- The accumulation loop of Lexer::readNumber: digits, with at most one
decimal point; returns the lexeme, whether a point was seen, and the rest. -/
def readNumberBody (hasDecimal : Bool) : List Char → String → String × Bool × List Char
  | c :: rest, acc =>
      if isDigitC c then readNumberBody hasDecimal rest (acc.push c)
      else if !hasDecimal && c = '.' then readNumberBody true rest (acc.push c)
      else (acc, hasDecimal, c :: rest)
  | [], acc => (acc, hasDecimal, [])

/-- Lexer::readNumber: the decimal point selects REAL_LITERAL. -/
def readNumber (input : List Char) : Token × List Char :=
  let (value, hasDecimal, rest) := readNumberBody false input ""
  (⟨if hasDecimal then .REAL_LITERAL else .INTEGER_LITERAL, value⟩, rest)

/-- The accumulation loop of Lexer::readIdentifier. -/
def readIdentifierBody : List Char → String → String × List Char
  | c :: rest, acc =>
      if isAlphaNumericC c then readIdentifierBody rest (acc.push c)
      else (acc, c :: rest)
  | [], acc => (acc, [])

/-- Lexer::readIdentifier: keyword lookup on the uppercased lexeme, original
case preserved in the token text. -/
def readIdentifier (input : List Char) : Token × List Char :=
  let (value, rest) := readIdentifierBody input ""
  match keywordLookup (toUpperString value) with
  | some kw => (⟨kw, value⟩, rest)
  | none => (⟨.IDENTIFIER, value⟩, rest)

/-- Lexer::nextToken, with fuel for the self-recursion after a comment; a call
with fuel greater than the input length never reaches the fuel-out branch,
since each comment skip consumes at least two characters. -/
def nextTokenF : Nat → List Char → Token × List Char
  | 0, input => (⟨.EOF_TOKEN, ""⟩, input)
  | fuel + 1, input =>
    match skipWhitespace input with
    | [] => (⟨.EOF_TOKEN, ""⟩, [])
    | c :: rest =>
      if commentAhead (c :: rest) then nextTokenF fuel (skipComment (c :: rest))
      else if c = '\'' || c = '"' then readString c rest
      else if isDigitC c then readNumber (c :: rest)
      else if isAlphaC c then readIdentifier (c :: rest)
      else if c = '(' then (⟨.LEFT_PAREN, "("⟩, rest)
      else if c = ')' then (⟨.RIGHT_PAREN, ")"⟩, rest)
      else if c = ',' then (⟨.COMMA, ","⟩, rest)
      else if c = ';' then (⟨.SEMICOLON, ";"⟩, rest)
      else if c = '.' then (⟨.DOT, "."⟩, rest)
      else if c = '+' then (⟨.PLUS, "+"⟩, rest)
      else if c = '-' then (⟨.MINUS, "-"⟩, rest)
      else if c = '*' then (⟨.MULTIPLY, "*"⟩, rest)
      else if c = '/' then (⟨.DIVIDE, "/"⟩, rest)
      else if c = '=' then (⟨.EQUAL, "="⟩, rest)
      else if c = '<' then
        match rest with
        | '=' :: r => (⟨.LESS_EQUAL, "<="⟩, r)
        | '>' :: r => (⟨.NOT_EQUAL, "<>"⟩, r)
        | _ => (⟨.LESS_THAN, "<"⟩, rest)
      else if c = '>' then
        match rest with
        | '=' :: r => (⟨.GREATER_EQUAL, ">="⟩, r)
        | _ => (⟨.GREATER_THAN, ">"⟩, rest)
      else if c = '!' then
        match rest with
        | '=' :: r => (⟨.NOT_EQUAL, "!="⟩, r)
        | _ => (⟨.INVALID, "!"⟩, rest)
      else (⟨.INVALID, String.mk [c]⟩, rest)

/-- Lexer::nextToken at its callers: the fuel bound always suffices. -/
def nextToken (input : List Char) : Token × List Char :=
  nextTokenF (input.length + 1) input

/-- The loop of Lexer::tokenize, with fuel for one iteration per token: while
input remains, read a token; INVALID tokens are dropped, EOF ends the scan
(and is kept), anything else is appended. -/
def tokenizeAux : Nat → List Char → List Token
  | 0, _ => []
  | fuel + 1, input =>
    if input.isEmpty then []
    else
      let (t, rest) := nextToken input
      if t.type = TokenType.EOF_TOKEN then [t]
      else if t.type = TokenType.INVALID then tokenizeAux fuel rest
      else t :: tokenizeAux fuel rest

/-- Lexer::tokenize: each iteration consumes at least one character, so fuel
one beyond the input length never runs out. -/
def tokenize (s : String) : List Token :=
  tokenizeAux (s.data.length + 1) s.data

/-- BinaryExpression::Operator (ast.h). -/
inductive BinOp where
  | ADD
  | SUBTRACT
  | MULTIPLY
  | DIVIDE
  | EQUAL
  | NOT_EQUAL
  | LESS_THAN
  | LESS_EQUAL
  | GREATER_THAN
  | GREATER_EQUAL
  | AND
  | OR
deriving DecidableEq, Repr

/-- UnaryExpression::Operator (ast.h). -/
inductive UnOp where
  | NOT
  | MINUS
deriving DecidableEq, Repr

/-- The Expression node hierarchy of ast.h as a closed sum: literal, column
reference (table_name defaults to the empty string when unqualified), binary
and unary nodes. -/
inductive Expression where
  | literal (value : Value)
  | column (table_name : String) (column_name : String)
  | binary (left : Expression) (op : BinOp) (right : Expression)
  | unary (op : UnOp) (operand : Expression)
deriving DecidableEq, Repr

/-- SelectStatement (ast.h), with the C++ default member values. -/
structure SelectStatement where
  select_list : List Expression := []
  from_table : String := ""
  where_clause : Option Expression := none
  order_by : List String := []
  order_desc : Bool := false
  limit : Int := -1
deriving DecidableEq, Repr

/-- InsertStatement (ast.h). -/
structure InsertStatement where
  table_name : String := ""
  columns : List String := []
  values : List (List Expression) := []
deriving DecidableEq, Repr

/-- CreateTableStatement (ast.h). -/
structure CreateTableStatement where
  table_name : String := ""
  columns : List Column := []
deriving DecidableEq, Repr

/-- DropTableStatement (ast.h). -/
structure DropTableStatement where
  table_name : String
deriving DecidableEq, Repr

/-- The Statement hierarchy of ast.h as a closed sum. -/
inductive Statement where
  | selectStmt (s : SelectStatement)
  | insertStmt (s : InsertStatement)
  | createStmt (s : CreateTableStatement)
  | dropStmt (s : DropTableStatement)
deriving DecidableEq, Repr

/-- The Parser's state (parser.h): the token vector and the current index. -/
structure ParserState where
  tokens : List Token
  current : Nat
deriving DecidableEq, Repr

/-- The sentinel returned where the C++ would index the token vector out of
range (undefined behaviour in the source). Every development below runs the
parser only on token sequences that end in an EOF token, where `peek` stays in
range and the sentinel is never consulted. -/
def outOfRangeToken : Token :=
  ⟨.EOF_TOKEN, ""⟩

/-- Parser::peek. -/
def ParserState.peek (st : ParserState) : Token :=
  st.tokens.getD st.current outOfRangeToken

/-- Parser::previous. -/
def ParserState.previous (st : ParserState) : Token :=
  st.tokens.getD (st.current - 1) outOfRangeToken

/-- Parser::isAtEnd. -/
def ParserState.isAtEnd (st : ParserState) : Bool :=
  st.peek.type = TokenType.EOF_TOKEN

/-- Parser::advance, as its effect on the state (callers read the consumed
token back through `previous`). -/
def ParserState.advance (st : ParserState) : ParserState :=
  if st.isAtEnd then st else { st with current := st.current + 1 }

/-- Parser::check. -/
def ParserState.check (st : ParserState) (ty : TokenType) : Bool :=
  if st.isAtEnd then false else st.peek.type = ty

/-- Parser::match on a single token type. -/
def ParserState.matchToken (st : ParserState) (ty : TokenType) : Bool × ParserState :=
  if st.check ty then (true, st.advance) else (false, st)

/-- Parser::match on a list of token types: the loop advances at the first
type the current token checks against. -/
def ParserState.matchAny (st : ParserState) (tys : List TokenType) : Bool × ParserState :=
  if tys.any (fun ty => st.check ty) then (true, st.advance) else (false, st)

/-- Parser::error: the thrown message, including the token index and, when not
at the end, the offending token's text. -/
def parseErrorMsg (st : ParserState) (message : String) : String :=
  let base := "Parse error at token " ++ toString st.current ++ ": " ++ message
  if st.isAtEnd then base else base ++ " (got '" ++ st.peek.value ++ "')"

/-- Parser::consume: advance past the expected token type or fail. -/
def ParserState.consume (st : ParserState) (ty : TokenType) (message : String) : Except String ParserState :=
  if st.check ty then .ok st.advance else .error (parseErrorMsg st message)

/-- Digit accumulation shared by the std::stoi / std::stoll / std::stod
models; the lexer only ever hands these functions digit runs. -/
def digitsToNat : List Char → Nat → Nat
  | c :: rest, acc => if isDigitC c then digitsToNat rest (acc * 10 + (c.toNat - 48)) else acc
  | [], acc => acc

/-- std::stoll on the lexer's integer literals (digits only, no sign; overflow
is not modelled as no claim exercises it). -/
def stoll (s : String) : Int :=
  Int.ofNat (digitsToNat s.data 0)

/-- std::stoi on the lexer's integer literals, same domain as `stoll`. -/
def stoi (s : String) : Int :=
  Int.ofNat (digitsToNat s.data 0)

/-- std::stod on the lexer's numeric literals (digits with at most one point):
the exact decimal value as a rational; IEEE rounding is not modelled as no
proved claim constructs a REAL value. -/
def stod (s : String) : Rat :=
  let intPart := s.data.takeWhile (fun c => c ≠ '.')
  let fracPart := (s.data.dropWhile (fun c => c ≠ '.')).drop 1
  (digitsToNat intPart 0 : Rat) + (digitsToNat fracPart 0 : Rat) / ((10 : Rat) ^ fracPart.length)

/-- Parser::parseValue: literal token to Value; the default case is the
parser's error path (unreachable from parsePrimaryExpression's call sites). -/
def parseTokenValue (st : ParserState) (t : Token) : Except String Value :=
  match t.type with
  | .INTEGER_LITERAL => .ok (.intV (stoll t.value))
  | .REAL_LITERAL => .ok (.realV (stod t.value))
  | .STRING_LITERAL => .ok (.textV t.value)
  | .TRUE => .ok (.boolV true)
  | .FALSE => .ok (.boolV false)
  | _ => .error (parseErrorMsg st "Invalid literal value")

/-- The error text of the embedding's unreachable fuel-out branches; the C++
loops always terminate, and every entry point below passes fuel exceeding the
number of parser steps its token list can drive. -/
def parserFuelMsg : String :=
  "parser fuel exhausted"

deriving instance DecidableEq for Except

mutual

/-- Parser::parseExpression. -/
def parseExpression (fuel : Nat) (st : ParserState) : Except String (Expression × ParserState) :=
  match fuel with
  | 0 => .error parserFuelMsg
  | fuel + 1 => parseOrExpression fuel st

/-- Parser::parseOrExpression. -/
def parseOrExpression (fuel : Nat) (st : ParserState) : Except String (Expression × ParserState) :=
  match fuel with
  | 0 => .error parserFuelMsg
  | fuel + 1 => do
    let (e, st) ← parseAndExpression fuel st
    parseOrLoop fuel e st

/-- The while-match(OR) loop of Parser::parseOrExpression. -/
def parseOrLoop (fuel : Nat) (e : Expression) (st : ParserState) : Except String (Expression × ParserState) :=
  match fuel with
  | 0 => .error parserFuelMsg
  | fuel + 1 =>
    let (m, st1) := st.matchToken .OR
    if m then do
      let (right, st2) ← parseAndExpression fuel st1
      parseOrLoop fuel (.binary e .OR right) st2
    else .ok (e, st)

/-- Parser::parseAndExpression. -/
def parseAndExpression (fuel : Nat) (st : ParserState) : Except String (Expression × ParserState) :=
  match fuel with
  | 0 => .error parserFuelMsg
  | fuel + 1 => do
    let (e, st) ← parseEqualityExpression fuel st
    parseAndLoop fuel e st

/-- The while-match(AND) loop of Parser::parseAndExpression. -/
def parseAndLoop (fuel : Nat) (e : Expression) (st : ParserState) : Except String (Expression × ParserState) :=
  match fuel with
  | 0 => .error parserFuelMsg
  | fuel + 1 =>
    let (m, st1) := st.matchToken .AND
    if m then do
      let (right, st2) ← parseEqualityExpression fuel st1
      parseAndLoop fuel (.binary e .AND right) st2
    else .ok (e, st)

/-- Parser::parseEqualityExpression. -/
def parseEqualityExpression (fuel : Nat) (st : ParserState) : Except String (Expression × ParserState) :=
  match fuel with
  | 0 => .error parserFuelMsg
  | fuel + 1 => do
    let (e, st) ← parseComparisonExpression fuel st
    parseEqualityLoop fuel e st

/-- The while-match(NOT_EQUAL, EQUAL) loop of Parser::parseEqualityExpression. -/
def parseEqualityLoop (fuel : Nat) (e : Expression) (st : ParserState) : Except String (Expression × ParserState) :=
  match fuel with
  | 0 => .error parserFuelMsg
  | fuel + 1 =>
    let (m, st1) := st.matchAny [.NOT_EQUAL, .EQUAL]
    if m then do
      let op := if st1.previous.type = TokenType.EQUAL then BinOp.EQUAL else BinOp.NOT_EQUAL
      let (right, st2) ← parseComparisonExpression fuel st1
      parseEqualityLoop fuel (.binary e op right) st2
    else .ok (e, st)

/-- Parser::parseComparisonExpression. -/
def parseComparisonExpression (fuel : Nat) (st : ParserState) : Except String (Expression × ParserState) :=
  match fuel with
  | 0 => .error parserFuelMsg
  | fuel + 1 => do
    let (e, st) ← parseTermExpression fuel st
    parseComparisonLoop fuel e st

/-- The comparison-operator loop of Parser::parseComparisonExpression, with
the C++ switch (whose default arm, EQUAL, is unreachable). -/
def parseComparisonLoop (fuel : Nat) (e : Expression) (st : ParserState) : Except String (Expression × ParserState) :=
  match fuel with
  | 0 => .error parserFuelMsg
  | fuel + 1 =>
    let (m, st1) := st.matchAny [.GREATER_THAN, .GREATER_EQUAL, .LESS_THAN, .LESS_EQUAL]
    if m then do
      let op :=
        match st1.previous.type with
        | .GREATER_THAN => BinOp.GREATER_THAN
        | .GREATER_EQUAL => BinOp.GREATER_EQUAL
        | .LESS_THAN => BinOp.LESS_THAN
        | .LESS_EQUAL => BinOp.LESS_EQUAL
        | _ => BinOp.EQUAL
      let (right, st2) ← parseTermExpression fuel st1
      parseComparisonLoop fuel (.binary e op right) st2
    else .ok (e, st)

/-- Parser::parseTermExpression. -/
def parseTermExpression (fuel : Nat) (st : ParserState) : Except String (Expression × ParserState) :=
  match fuel with
  | 0 => .error parserFuelMsg
  | fuel + 1 => do
    let (e, st) ← parseFactorExpression fuel st
    parseTermLoop fuel e st

/-- The while-match(MINUS, PLUS) loop of Parser::parseTermExpression. -/
def parseTermLoop (fuel : Nat) (e : Expression) (st : ParserState) : Except String (Expression × ParserState) :=
  match fuel with
  | 0 => .error parserFuelMsg
  | fuel + 1 =>
    let (m, st1) := st.matchAny [.MINUS, .PLUS]
    if m then do
      let op := if st1.previous.type = TokenType.PLUS then BinOp.ADD else BinOp.SUBTRACT
      let (right, st2) ← parseFactorExpression fuel st1
      parseTermLoop fuel (.binary e op right) st2
    else .ok (e, st)

/-- Parser::parseFactorExpression. -/
def parseFactorExpression (fuel : Nat) (st : ParserState) : Except String (Expression × ParserState) :=
  match fuel with
  | 0 => .error parserFuelMsg
  | fuel + 1 => do
    let (e, st) ← parseUnaryExpression fuel st
    parseFactorLoop fuel e st

/-- The while-match(DIVIDE, MULTIPLY) loop of Parser::parseFactorExpression. -/
def parseFactorLoop (fuel : Nat) (e : Expression) (st : ParserState) : Except String (Expression × ParserState) :=
  match fuel with
  | 0 => .error parserFuelMsg
  | fuel + 1 =>
    let (m, st1) := st.matchAny [.DIVIDE, .MULTIPLY]
    if m then do
      let op := if st1.previous.type = TokenType.MULTIPLY then BinOp.MULTIPLY else BinOp.DIVIDE
      let (right, st2) ← parseUnaryExpression fuel st1
      parseFactorLoop fuel (.binary e op right) st2
    else .ok (e, st)

/-- Parser::parseUnaryExpression: right-associative self-recursion. -/
def parseUnaryExpression (fuel : Nat) (st : ParserState) : Except String (Expression × ParserState) :=
  match fuel with
  | 0 => .error parserFuelMsg
  | fuel + 1 =>
    let (m, st1) := st.matchAny [.NOT, .MINUS]
    if m then do
      let op := if st1.previous.type = TokenType.NOT then UnOp.NOT else UnOp.MINUS
      let (e, st2) ← parseUnaryExpression fuel st1
      .ok (.unary op e, st2)
    else parsePrimaryExpression fuel st

/-- Parser::parsePrimaryExpression: literals, NULL, TRUE/FALSE, identifiers
(optionally qualified by a dot), parenthesized sub-expressions. -/
def parsePrimaryExpression (fuel : Nat) (st : ParserState) : Except String (Expression × ParserState) :=
  match fuel with
  | 0 => .error parserFuelMsg
  | fuel + 1 =>
    let (m, st1) := st.matchAny [.TRUE, .FALSE]
    if m then .ok (.literal (.boolV (st1.previous.type = TokenType.TRUE)), st1)
    else
      let (m, st1) := st.matchToken .NULL_KW
      if m then .ok (.literal .nullV, st1)
      else
        let (m, st1) := st.matchAny [.INTEGER_LITERAL, .REAL_LITERAL, .STRING_LITERAL]
        if m then do
          let v ← parseTokenValue st1 st1.previous
          .ok (.literal v, st1)
        else
          let (m, st1) := st.matchToken .IDENTIFIER
          if m then
            let name := st1.previous.value
            let (md, st2) := st1.matchToken .DOT
            if md then do
              let st3 ← st2.consume .IDENTIFIER "Expected column name after '.'"
              .ok (.column name st3.previous.value, st3)
            else .ok (.column "" name, st1)
          else
            let (m, st1) := st.matchToken .LEFT_PAREN
            if m then do
              let (e, st2) ← parseExpression fuel st1
              let st3 ← st2.consume .RIGHT_PAREN "Expected ')' after expression"
              .ok (e, st3)
            else .error (parseErrorMsg st "Expected expression")

end

/-- The do-while select-list loop of Parser::parseSelectStatement: a bare star
becomes the ColumnExpression("*") marker, anything else a full expression;
repeats while a comma follows. -/
def parseSelectItems (fuel : Nat) (acc : List Expression) (st : ParserState) : Except String (List Expression × ParserState) :=
  match fuel with
  | 0 => .error parserFuelMsg
  | fuel + 1 => do
    let (m, st) := st.matchToken .MULTIPLY
    let (acc, st) ←
      if m then pure (acc ++ [Expression.column "" "*"], st)
      else do
        let (e, st) ← parseExpression fuel st
        pure (acc ++ [e], st)
    let (mc, st) := st.matchToken .COMMA
    if mc then parseSelectItems fuel acc st else .ok (acc, st)

/-- The do-while ORDER BY column loop of Parser::parseSelectStatement. -/
def parseOrderByItems (fuel : Nat) (acc : List String) (st : ParserState) : Except String (List String × ParserState) :=
  match fuel with
  | 0 => .error parserFuelMsg
  | fuel + 1 => do
    let st ← st.consume .IDENTIFIER "Expected column name in ORDER BY"
    let acc := acc ++ [st.previous.value]
    let (mc, st) := st.matchToken .COMMA
    if mc then parseOrderByItems fuel acc st else .ok (acc, st)

/-- Parser::parseSelectStatement, entered after the SELECT keyword was
matched. -/
def parseSelectStatement (fuel : Nat) (st : ParserState) : Except String (Statement × ParserState) := do
  let (sel, st) ← parseSelectItems fuel [] st
  let st ← st.consume .FROM "Expected 'FROM' after SELECT list"
  let st ← st.consume .IDENTIFIER "Expected table name after FROM"
  let from_table := st.previous.value
  let (mw, st) := st.matchToken .WHERE
  let (wc, st) ←
    if mw then do
      let (e, st) ← parseExpression fuel st
      pure (some e, st)
    else pure ((none : Option Expression), st)
  let (mo, st) := st.matchToken .ORDER
  let (ob, od, st) ←
    if mo then do
      let st ← st.consume .BY "Expected 'BY' after ORDER"
      let (obs, st) ← parseOrderByItems fuel [] st
      let (md, st) := st.matchToken .DESC
      if md then pure (obs, true, st)
      else
        let (_, st) := st.matchToken .ASC
        pure (obs, false, st)
    else pure (([] : List String), false, st)
  let (ml, st) := st.matchToken .LIMIT
  let (lim, st) ←
    if ml then do
      let st ← st.consume .INTEGER_LITERAL "Expected number after LIMIT"
      pure (stoi st.previous.value, st)
    else pure ((-1 : Int), st)
  .ok (.selectStmt ⟨sel, from_table, wc, ob, od, lim⟩, st)

/-- The do-while column-name loop of Parser::parseInsertStatement (inside the
optional parenthesized column list). -/
def parseInsertColumns (fuel : Nat) (acc : List String) (st : ParserState) : Except String (List String × ParserState) :=
  match fuel with
  | 0 => .error parserFuelMsg
  | fuel + 1 => do
    let st ← st.consume .IDENTIFIER "Expected column name"
    let acc := acc ++ [st.previous.value]
    let (mc, st) := st.matchToken .COMMA
    if mc then parseInsertColumns fuel acc st else .ok (acc, st)

/-- The inner do-while loop of Parser::parseInsertStatement: the expressions
of one parenthesized value list. -/
def parseInsertExprs (fuel : Nat) (acc : List Expression) (st : ParserState) : Except String (List Expression × ParserState) :=
  match fuel with
  | 0 => .error parserFuelMsg
  | fuel + 1 => do
    let (e, st) ← parseExpression fuel st
    let acc := acc ++ [e]
    let (mc, st) := st.matchToken .COMMA
    if mc then parseInsertExprs fuel acc st else .ok (acc, st)

/-- The outer do-while loop of Parser::parseInsertStatement: one parenthesized
value list per iteration, repeated while a comma follows. -/
def parseInsertValueLists (fuel : Nat) (acc : List (List Expression)) (st : ParserState) : Except String (List (List Expression) × ParserState) :=
  match fuel with
  | 0 => .error parserFuelMsg
  | fuel + 1 => do
    let st ← st.consume .LEFT_PAREN "Expected '(' before values"
    let (vs, st) ← parseInsertExprs fuel [] st
    let st ← st.consume .RIGHT_PAREN "Expected ')' after values"
    let acc := acc ++ [vs]
    let (mc, st) := st.matchToken .COMMA
    if mc then parseInsertValueLists fuel acc st else .ok (acc, st)

/-- Parser::parseInsertStatement, entered after the INSERT keyword was
matched. -/
def parseInsertStatement (fuel : Nat) (st : ParserState) : Except String (Statement × ParserState) := do
  let st ← st.consume .INTO "Expected 'INTO' after INSERT"
  let st ← st.consume .IDENTIFIER "Expected table name"
  let table_name := st.previous.value
  let (mp, st) := st.matchToken .LEFT_PAREN
  let (cols, st) ←
    if mp then do
      let (cs, st) ← parseInsertColumns fuel [] st
      let st ← st.consume .RIGHT_PAREN "Expected ')' after column list"
      pure (cs, st)
    else pure (([] : List String), st)
  let st ← st.consume .VALUES "Expected 'VALUES'"
  let (vls, st) ← parseInsertValueLists fuel [] st
  .ok (.insertStmt ⟨table_name, cols, vls⟩, st)

/-- Parser::parseDataType. -/
def parseDataType (st : ParserState) : Except String (DataType × ParserState) :=
  let (m, st1) := st.matchToken .INTEGER_TYPE
  if m then .ok (.INTEGER, st1)
  else
    let (m, st1) := st.matchToken .REAL_TYPE
    if m then .ok (.REAL, st1)
    else
      let (m, st1) := st.matchToken .TEXT_TYPE
      if m then .ok (.TEXT, st1)
      else
        let (m, st1) := st.matchToken .BOOLEAN_TYPE
        if m then .ok (.BOOLEAN, st1)
        else .error (parseErrorMsg st "Expected data type")

/-- The constraint while-loop of Parser::parseCreateTableStatement: consumes
NOT and IDENTIFIER tokens; the comparisons are against the token's original
text, so only the exact spellings NOT and PRIMARY take effect and any other
matched token is silently swallowed, as in the C++. -/
def parseColumnConstraints (fuel : Nat) (nullable primary_key : Bool) (st : ParserState) : Except String (Bool × Bool × ParserState) :=
  match fuel with
  | 0 => .error parserFuelMsg
  | fuel + 1 =>
    let (m, st1) := st.matchAny [.NOT, .IDENTIFIER]
    if m then
      if st1.previous.value = "NOT" then do
        let st2 ← st1.consume .NULL_KW "Expected 'NULL' after NOT"
        parseColumnConstraints fuel false primary_key st2
      else if st1.previous.value = "PRIMARY" then do
        let st2 ← st1.consume .IDENTIFIER "Expected 'KEY' after PRIMARY"
        if st2.previous.value ≠ "KEY" then .error (parseErrorMsg st2 "Expected 'KEY' after PRIMARY")
        else parseColumnConstraints fuel nullable true st2
      else parseColumnConstraints fuel nullable primary_key st1
    else .ok (nullable, primary_key, st)

/-- The do-while column-definition loop of Parser::parseCreateTableStatement. -/
def parseColumnDefs (fuel : Nat) (acc : List Column) (st : ParserState) : Except String (List Column × ParserState) :=
  match fuel with
  | 0 => .error parserFuelMsg
  | fuel + 1 => do
    let st ← st.consume .IDENTIFIER "Expected column name"
    let column_name := st.previous.value
    let (data_type, st) ← parseDataType st
    let (nullable, primary_key, st) ← parseColumnConstraints fuel true false st
    let acc := acc ++ [⟨column_name, data_type, nullable, primary_key⟩]
    let (mc, st) := st.matchToken .COMMA
    if mc then parseColumnDefs fuel acc st else .ok (acc, st)

/-- Parser::parseCreateTableStatement, entered after the CREATE keyword was
matched. -/
def parseCreateTableStatement (fuel : Nat) (st : ParserState) : Except String (Statement × ParserState) := do
  let st ← st.consume .TABLE "Expected 'TABLE' after CREATE"
  let st ← st.consume .IDENTIFIER "Expected table name"
  let table_name := st.previous.value
  let st ← st.consume .LEFT_PAREN "Expected '(' after table name"
  let (cols, st) ← parseColumnDefs fuel [] st
  let st ← st.consume .RIGHT_PAREN "Expected ')' after column definitions"
  .ok (.createStmt ⟨table_name, cols⟩, st)

/-- Parser::parseDropTableStatement, entered after the DROP keyword was
matched. -/
def parseDropTableStatement (st : ParserState) : Except String (Statement × ParserState) := do
  let st ← st.consume .TABLE "Expected 'TABLE' after DROP"
  let st ← st.consume .IDENTIFIER "Expected table name"
  .ok (.dropStmt ⟨st.previous.value⟩, st)

/-- Parser::parseStatement: dispatch on the first token. -/
def parseStatementF (fuel : Nat) (st : ParserState) : Except String (Statement × ParserState) :=
  let (m, st1) := st.matchToken .SELECT
  if m then parseSelectStatement fuel st1
  else
    let (m, st1) := st.matchToken .INSERT
    if m then parseInsertStatement fuel st1
    else
      let (m, st1) := st.matchToken .CREATE
      if m then parseCreateTableStatement fuel st1
      else
        let (m, st1) := st.matchToken .DROP
        if m then parseDropTableStatement st1
        else .error (parseErrorMsg st "Expected statement")

/-- The parse entry point on a token vector, as QueryEngine::execute invokes
it: fuel far beyond the number of parser steps any token list can drive (each
loop iteration and each descent into a sub-expression is bounded by the token
count times the grammar's fixed depth). -/
def parseStatement (tokens : List Token) : Except String (Statement × ParserState) :=
  parseStatementF (64 * (tokens.length + 1)) ⟨tokens, 0⟩

/-- LLVMCodeGenerator::evaluateWhereClause: AND and OR recurse, every other
binary operator yields true; a boolean literal yields its value; every other
expression (non-boolean literals, column references, unary nodes) defaults to
true. -/
def evaluateWhereClause : Expression → Row → Bool
  | .binary l op r, row =>
    let left_val := evaluateWhereClause l row
    let right_val := evaluateWhereClause r row
    match op with
    | .AND => left_val && right_val
    | .OR => left_val || right_val
    | _ => true
  | .literal v, _ =>
    match v with
    | .boolV b => b
    | _ => true
  | _, _ => true

/-- The interpretive body of LLVMCodeGenerator::visit(SelectStatement&):
resolve the table, then keep each stored row whose WHERE evaluation holds
(absent WHERE includes the row). The select_list, order_by, order_desc and
limit fields are never consulted. -/
def visitSelect (db : Database) (node : SelectStatement) : Except String (List Row) :=
  match db.tables node.from_table with
  | none => .error ("Table not found: " ++ node.from_table)
  | some t =>
    .ok (t.rows.filter fun row =>
      match node.where_clause with
      | some w => evaluateWhereClause w row
      | none => true)

/-- The literal check in LLVMCodeGenerator::visit(InsertStatement&): only
LiteralExpression values are accepted. -/
def exprLiteralValue : Expression → Except String Value
  | .literal v => .ok v
  | _ => .error "Complex expressions in INSERT not yet supported"

/-- The row-assembly loop over one value list in
LLVMCodeGenerator::visit(InsertStatement&). -/
def buildInsertRow : List Expression → Except String Row
  | [] => .ok []
  | e :: rest => do
    let v ← exprLiteralValue e
    let r ← buildInsertRow rest
    .ok (v :: r)

/-- The value-list loop of LLVMCodeGenerator::visit(InsertStatement&): rows
are inserted one list at a time, in place; the first failure aborts the loop
but keeps the rows already inserted. -/
def insertValueRows (t : Table) : List (List Expression) → Table × Option String
  | [] => (t, none)
  | vl :: rest =>
    match buildInsertRow vl with
    | .error e => (t, some e)
    | .ok row =>
      match t.insertRow row with
      | .error e => (t, some e)
      | .ok t2 => insertValueRows t2 rest

/-- LLVMCodeGenerator::visit(InsertStatement&): resolve the table, then insert
each value list; the columns field is never consulted. The database keeps the
in-place mutations made before any failure. -/
def visitInsert (db : Database) (node : InsertStatement) : Database × Option String :=
  match db.tables node.table_name with
  | none => (db, some ("Table not found: " ++ node.table_name))
  | some t =>
    let (t2, err) := insertValueRows t node.values
    (db.setTable node.table_name t2, err)

/-- LLVMCodeGenerator::visit(CreateTableStatement&): build the schema by
addColumn in declaration order, then createTable. -/
def visitCreate (db : Database) (node : CreateTableStatement) : Except String Database :=
  db.createTable node.table_name (node.columns.foldl Schema.addColumn {})

/-- One statement's effect on the database and its result rows, as
LLVMCodeGenerator::generateCode plus execute produce them: the result vector
is cleared per statement and only the SELECT visit fills it; the LLVM module
and JIT plumbing write neither the results nor the database. A thrown error is
returned alongside the database state the visit left behind. -/
def runStatement (db : Database) : Statement → Database × Except String (List Row)
  | .selectStmt s => (db, visitSelect db s)
  | .insertStmt s =>
    let (db2, err) := visitInsert db s
    (db2, match err with | some e => .error e | none => .ok [])
  | .createStmt s =>
    match visitCreate db s with
    | .error e => (db, .error e)
    | .ok db2 => (db2, .ok [])
  | .dropStmt s => (db.dropTable s.table_name, .ok [])

/-- QueryEngine (query_engine.h): the owned database and the last error. -/
structure QueryEngine where
  database : Database := {}
  last_error : String := ""

/-- QueryEngine::execute (query_engine.cpp): clear the last error, tokenize,
reject an empty token vector, parse one statement, run it; any failure is
caught, recorded as the last error and turned into an empty result. The
function is total: no exception propagates to the caller. -/
def QueryEngine.execute (eng : QueryEngine) (sql : String) : QueryEngine × List Row :=
  let eng := { eng with last_error := "" }
  let tokens := tokenize sql
  if tokens.isEmpty then ({ eng with last_error := "No tokens found in SQL" }, [])
  else
    match parseStatement tokens with
    | .error e => ({ eng with last_error := e }, [])
    | .ok (stmt, _) =>
      let (db2, res) := runStatement eng.database stmt
      match res with
      | .error e => ({ database := db2, last_error := e }, [])
      | .ok rows => ({ database := db2, last_error := "" }, rows)

/-- Statement-at-a-time driver used by the concrete scenarios below: the
engine after executing each SQL string in turn. -/
def execSql (eng : QueryEngine) (sql : String) : QueryEngine :=
  (eng.execute sql).1

/-- A fresh engine after a list of SQL statements. -/
def runScript (sqls : List String) : QueryEngine :=
  sqls.foldl execSql {}

/-
Concrete scenarios used by the claim theorems. Every SQL string carries a
trailing space or a following token: Lexer::tokenize appends its EOF token
only when scanning past the last lexeme still finds input, and the C++
parser's lookahead indexes the token vector out of range when the EOF token
is missing (see outOfRangeToken); the trailing space keeps every scenario on
the defined path.
-/

/-- A one-integer-column table t holding rows (3),(1),(2). -/
def engC1 : QueryEngine :=
  runScript ["CREATE TABLE t (c INTEGER) ", "INSERT INTO t VALUES (3), (1), (2) "]

/-- A two-integer-column table t holding the row (1,2). -/
def engC2 : QueryEngine :=
  runScript ["CREATE TABLE t (a INTEGER, b INTEGER) ", "INSERT INTO t VALUES (1, 2) "]

/-- A one-integer-column table t holding the row (7). -/
def engC3 : QueryEngine :=
  runScript ["CREATE TABLE t (a INTEGER) ", "INSERT INTO t VALUES (7) "]

/-- An empty one-integer-column table t. -/
def engC4 : QueryEngine :=
  runScript ["CREATE TABLE t (c INTEGER) "]

/-- engC4 after a two-list INSERT whose second list fails validation (a
boolean into the INTEGER column). -/
def engC4b : QueryEngine :=
  (engC4.execute "INSERT INTO t VALUES (1), (true) ").1

/-- A two-column table t filled through an INSERT whose column list (b, a)
reverses the schema order. -/
def engC5 : QueryEngine :=
  runScript ["CREATE TABLE t (a INTEGER, b INTEGER) ", "INSERT INTO t (b, a) VALUES (1, 2) "]

/-- The stored rows of one table, the projection the decidable scenario
statements compare. -/
def tableRowsOf (eng : QueryEngine) (name : String) : Option (List Row) :=
  (eng.database.tables name).map Table.rows

/-- Claim C1, counterexample: on the one-integer-column table holding
(3),(1),(2), the query SELECT * FROM t ORDER BY c LIMIT 2 returns all three
rows in insertion order (3),(1),(2), not the claimed (1),(2): the executor
neither sorts nor truncates. -/
theorem select_orderby_limit_cex :
    (engC1.execute "SELECT * FROM t ORDER BY c LIMIT 2 ").2
        = [[Value.intV 3], [Value.intV 1], [Value.intV 2]] ∧
    (engC1.execute "SELECT * FROM t ORDER BY c LIMIT 2 ").2
        ≠ [[Value.intV 1], [Value.intV 2]] := by
  exact ⟨by decide, by decide⟩

/-- Claim C1, amended: ORDER BY and LIMIT are parsed into the statement but
ignored by execution — the SELECT result does not depend on the order_by,
order_desc or limit fields, and the example query returns the included rows
in storage order, (3),(1),(2). -/
theorem select_orderby_limit_ignored :
    (∀ (db : Database) (s : SelectStatement) (ob : List String) (od : Bool) (lim : Int),
        visitSelect db { s with order_by := ob, order_desc := od, limit := lim }
          = visitSelect db s) ∧
    (engC1.execute "SELECT * FROM t ORDER BY c LIMIT 2 ").2
        = (engC1.execute "SELECT * FROM t ").2 ∧
    (engC1.execute "SELECT * FROM t ").2
        = [[Value.intV 3], [Value.intV 1], [Value.intV 2]] := by
  exact ⟨fun db s ob od lim => rfl, by decide, by decide⟩

/-- Claim C2, counterexample: on the two-column table holding (1,2), the query
SELECT a FROM t returns the full stored row (1,2), not the claimed projected
row (1): explicit select-list expressions are never evaluated. -/
theorem select_projection_cex :
    (engC2.execute "SELECT a FROM t ").2 = [[Value.intV 1, Value.intV 2]] ∧
    (engC2.execute "SELECT a FROM t ").2 ≠ [[Value.intV 1]] := by
  exact ⟨by decide, by decide⟩

/-- Claim C2, amended: the select list is ignored by execution — the SELECT
result does not depend on the select_list field, so a star select returns the
full stored rows (in schema order, as claimed) but so does every other select
list; no projection happens. -/
theorem select_list_ignored :
    (∀ (db : Database) (s : SelectStatement) (sel : List Expression),
        visitSelect db { s with select_list := sel } = visitSelect db s) ∧
    (engC2.execute "SELECT a FROM t ").2 = (engC2.execute "SELECT * FROM t ").2 ∧
    (engC2.execute "SELECT * FROM t ").2 = [[Value.intV 1, Value.intV 2]] := by
  exact ⟨fun db s sel => rfl, by decide, by decide⟩

/-- Claim C3, counterexample: the non-boolean WHERE expression 5 does not make
the statement fail with a TypeMismatch error — the query succeeds with the
last error left empty, and even includes the row. -/
theorem where_nonboolean_cex :
    (engC3.execute "SELECT * FROM t WHERE 5 ").2 = [[Value.intV 7]] ∧
    (engC3.execute "SELECT * FROM t WHERE 5 ").1.last_error = "" := by
  exact ⟨by decide, by decide⟩

/-- Claim C3, amended: a row is included iff evaluateWhereClause holds on it
(absent WHERE includes every row); under that evaluation a boolean literal
acts as the predicate — WHERE true returns all rows and WHERE false none — but
any non-boolean literal (and any expression other than a boolean literal or an
AND/OR combination) evaluates to true, so a non-boolean WHERE includes every
row and never raises a TypeMismatch error. -/
theorem where_filter_semantics :
    (∀ (b : Bool) (row : Row),
        evaluateWhereClause (Expression.literal (Value.boolV b)) row = b) ∧
    (∀ (i : Int) (row : Row),
        evaluateWhereClause (Expression.literal (Value.intV i)) row = true) ∧
    (engC3.execute "SELECT * FROM t ").2 = [[Value.intV 7]] ∧
    (engC3.execute "SELECT * FROM t WHERE true ").2 = [[Value.intV 7]] ∧
    (engC3.execute "SELECT * FROM t WHERE false ").2 = [] ∧
    (engC3.execute "SELECT * FROM t WHERE 5 ").2 = [[Value.intV 7]] ∧
    (engC3.execute "SELECT * FROM t WHERE 5 ").1.last_error = "" := by
  refine ⟨fun b row => rfl, fun i row => rfl, by decide, by decide, by decide, by decide, by decide⟩

/-- Claim C4, counterexample: on the empty one-integer-column table, the
two-list statement INSERT INTO t VALUES (1), (true) fails on its second value
list, yet leaves the table with one row — the row count changed from 0 to 1
across the failing INSERT. -/
theorem insert_atomicity_cex :
    tableRowsOf engC4 "t" = some [] ∧
    tableRowsOf engC4b "t" = some [[Value.intV 1]] ∧
    engC4b.last_error = "Row validation failed" := by
  exact ⟨by decide, by decide, by decide⟩

/-- Claim C4, amended: each value list is individually atomic — an INSERT only
ever appends to the existing rows, and a single-value-list INSERT either
succeeds or leaves the table exactly unchanged (validation precedes append) —
but a multi-row INSERT failing at a later value list keeps the rows the
earlier lists inserted, as the example's row count of 1 shows. -/
theorem insert_per_list_atomicity :
    (∀ (t : Table) (vls : List (List Expression)),
        ∃ l, (insertValueRows t vls).1.rows = t.rows ++ l) ∧
    (∀ (t : Table) (vl : List Expression),
        (insertValueRows t [vl]).2 = none ∨ (insertValueRows t [vl]).1 = t) ∧
    tableRowsOf (engC4.execute "INSERT INTO t VALUES (true) ").1 "t" = some [] ∧
    tableRowsOf engC4b "t" = some [[Value.intV 1]] := by
  refine ⟨?_, ?_, by decide, by decide⟩
  · intro t vls
    induction vls generalizing t with
    | nil => exact ⟨[], by simp [insertValueRows]⟩
    | cons vl rest ih =>
      simp only [insertValueRows]
      cases hb : buildInsertRow vl with
      | error e => exact ⟨[], by simp⟩
      | ok row =>
        simp only [Table.insertRow]
        by_cases hv : t.validateRow row
        · simp only [hv, if_pos]
          obtain ⟨l, hl⟩ := ih { t with rows := t.rows ++ [row] }
          exact ⟨[row] ++ l, by simpa [List.append_assoc] using hl⟩
        · exact ⟨[], by simp [hv]⟩
  · intro t vl
    simp only [insertValueRows]
    cases hb : buildInsertRow vl with
    | error e => exact Or.inr rfl
    | ok row =>
      simp only [Table.insertRow]
      by_cases hv : t.validateRow row
      · simp [hv, insertValueRows]
      · simp [hv]

/-- Claim C5, counterexample: with schema (a INTEGER, b INTEGER) and the
statement INSERT INTO t (b, a) VALUES (1, 2), the stored row is (1, 2) — the
values in the order written — not the claimed column-list placement (2, 1). -/
theorem insert_column_list_cex :
    tableRowsOf engC5 "t" = some [[Value.intV 1, Value.intV 2]] ∧
    tableRowsOf engC5 "t" ≠ some [[Value.intV 2, Value.intV 1]] ∧
    engC5.last_error = "" := by
  exact ⟨by decide, by decide, by decide⟩

/-- Claim C5, amended: the explicit column list is parsed into the statement
but ignored by execution — the INSERT effect does not depend on the columns
field, and the evaluated values are placed left-to-right into schema
positions, as the example's stored row (1, 2) shows. -/
theorem insert_column_list_ignored :
    (∀ (db : Database) (node : InsertStatement) (cols : List String),
        visitInsert db { node with columns := cols } = visitInsert db node) ∧
    tableRowsOf engC5 "t" = some [[Value.intV 1, Value.intV 2]] := by
  exact ⟨fun db node cols => rfl, by decide⟩

/-- The characters that begin some token in Lexer::nextToken: whitespace
(skipped), quotes, digits, identifier characters, and the punctuation and
operator characters of the switch; every other character takes the INVALID
default (the lone bang also yields INVALID, handled by its own branch). -/
def startsTokenChar (c : Char) : Bool :=
  isSpaceC c || isDigitC c || isAlphaC c ||
    c ∈ ['\'', '"', '(', ')', ',', ';', '.', '+', '-', '*', '/', '=', '<', '>', '!']

/-- Claim C6, counterexample: the character @ starts no token and nextToken
duly produces an INVALID token carrying it, but tokenize filters INVALID
tokens out of the returned sequence — tokenize of the one-character input @ is
empty, so the parser never sees the INVALID token it is claimed to reject. -/
theorem lexer_invalid_tokens_cex :
    nextToken ['@'] = (⟨TokenType.INVALID, "@"⟩, []) ∧
    tokenize "@" = [] := by
  exact ⟨by decide, by decide⟩

/-- Claim C6, amended: lexing never fails and every character that starts no
token yields from nextToken an INVALID token carrying that single character;
but the tokenize loop drops INVALID tokens, so the sequence it returns never
contains one and lexical problems are silently discarded rather than surfaced
to the parser. -/
theorem lexer_never_fails_but_filters :
    (∀ (c : Char) (rest : List Char) (fuel : Nat), startsTokenChar c = false →
        nextTokenF (fuel + 1) (c :: rest) = (⟨TokenType.INVALID, String.mk [c]⟩, rest)) ∧
    (∀ (fuel : Nat) (input : List Char) (t : Token),
        t ∈ tokenizeAux fuel input → t.type ≠ TokenType.INVALID) ∧
    tokenize "@" = [] := by
  refine ⟨?_, ?_, by decide⟩
  · intro c rest fuel h
    simp only [startsTokenChar, Bool.or_eq_false_iff, decide_eq_false_iff_not,
      List.mem_cons, List.not_mem_nil, or_false] at h
    obtain ⟨⟨⟨hsp, hdg⟩, hal⟩, hmem⟩ := h
    push_neg at hmem
    obtain ⟨hq1, hq2, hp1, hp2, hco, hsc, hdot, hplus, hminus, hstar, hslash,
      heq, hlt, hgt, hbang⟩ := hmem
    have hsw : skipWhitespace (c :: rest) = c :: rest := by simp [skipWhitespace, hsp]
    have hca : commentAhead (c :: rest) = false := by
      cases rest <;> simp [commentAhead, hminus]
    simp [nextTokenF, hsw, hca, hq1, hq2, hdg, hal, hp1, hp2, hco, hsc, hdot,
      hplus, hminus, hstar, hslash, heq, hlt, hgt, hbang]
  · intro fuel
    induction fuel with
    | zero => intro input t ht; simp [tokenizeAux] at ht
    | succ fuel ih =>
      intro input t ht
      by_cases hemp : input.isEmpty
      · simp [tokenizeAux, hemp] at ht
      · rcases hnt : nextToken input with ⟨tk, rest⟩
        simp only [tokenizeAux, hemp, if_neg, Bool.false_eq_true, not_false_iff, hnt] at ht
        by_cases heo : tk.type = TokenType.EOF_TOKEN
        · simp only [heo, if_pos] at ht
          simp only [List.mem_singleton] at ht
          subst ht
          simp [heo]
        · by_cases hin : tk.type = TokenType.INVALID
          · simp only [heo, if_neg, hin, if_pos, not_false_iff] at ht
            exact ih rest t ht
          · simp only [heo, hin, if_neg, not_false_iff, List.mem_cons] at ht
            rcases ht with rfl | ht
            · exact hin
            · exact ih rest t ht

/-- Claim C6, witness: the amended theorem at the concrete character @ with
empty rest and fuel 0. -/
theorem lexer_never_fails_but_filters_witness :
    nextTokenF 1 ['@'] = (⟨TokenType.INVALID, String.mk ['@']⟩, []) :=
  lexer_never_fails_but_filters.1 '@' [] 0 (by decide)

/-- Claim C7: evaluating tokenize at the failing input a: the returned
sequence is the lone IDENTIFIER token and ends with no EOF token — the
tokenize loop exits as soon as the input is exhausted, so the EOF token is
appended only when trailing whitespace or a trailing comment remains after the
last lexeme. -/
theorem tokenize_eof_cex :
    tokenize "a" = [⟨TokenType.IDENTIFIER, "a"⟩] ∧
    (⟨TokenType.IDENTIFIER, "a"⟩ : Token).type ≠ TokenType.EOF_TOKEN ∧
    tokenize "a " = [⟨TokenType.IDENTIFIER, "a"⟩, ⟨TokenType.EOF_TOKEN, ""⟩] ∧
    tokenize "" = [] := by
  exact ⟨by decide, by decide, by decide, by decide⟩

/-- Structural fact about the tokenize loop: no token ever follows an EOF
token — every element before the last is not an EOF token, since the loop
stops at the first EOF it keeps. -/
theorem tokenize_eof_at_most_last :
    (∀ (fuel : Nat) (input : List Char) (t : Token),
        t ∈ (tokenizeAux fuel input).dropLast → t.type ≠ TokenType.EOF_TOKEN) ∧
    tokenize "a " = [⟨TokenType.IDENTIFIER, "a"⟩, ⟨TokenType.EOF_TOKEN, ""⟩] := by
  refine ⟨?_, by decide⟩
  intro fuel
  induction fuel with
  | zero => intro input t ht; simp [tokenizeAux] at ht
  | succ fuel ih =>
    intro input t ht
    by_cases hemp : input.isEmpty
    · simp [tokenizeAux, hemp] at ht
    · rcases hnt : nextToken input with ⟨tk, rest⟩
      simp only [tokenizeAux, hemp, if_neg, Bool.false_eq_true, not_false_iff, hnt] at ht
      by_cases heo : tk.type = TokenType.EOF_TOKEN
      · simp [heo, List.dropLast_single] at ht
      · by_cases hin : tk.type = TokenType.INVALID
        · simp only [heo, if_neg, hin, if_pos, not_false_iff] at ht
          exact ih rest t ht
        · simp only [heo, hin, if_neg, not_false_iff] at ht
          cases hL : tokenizeAux fuel rest with
          | nil => simp [hL, List.dropLast_single] at ht
          | cons b L2 =>
            rw [hL, List.dropLast_cons₂, List.mem_cons] at ht
            rcases ht with rfl | ht
            · exact heo
            · exact ih rest t (by rw [hL]; exact ht)

/-- Claim C7, witness: the at-most-last theorem at a concrete input where a
non-final token is inspected. -/
theorem tokenize_eof_at_most_last_witness :
    (⟨TokenType.IDENTIFIER, "a"⟩ : Token).type ≠ TokenType.EOF_TOKEN :=
  tokenize_eof_at_most_last.1 3 ("a b".data) ⟨TokenType.IDENTIFIER, "a"⟩ (by decide)

/-- A table created with two columns that share the name a. -/
def engC8 : QueryEngine :=
  runScript ["CREATE TABLE t (a INTEGER, a TEXT) "]

/-- What the name-to-index map of a Schema actually guarantees: every binding
points inside the column sequence, at a column of that name, and at the last
column of that name (later additions overwrite earlier bindings). Uniqueness
of names is not part of it. -/
def schemaIndexConsistent (s : Schema) : Prop :=
  ∀ (n : String) (i : Nat), s.column_index n = some i →
    ∃ h : i < s.columns.length,
      s.columns[i].name = n ∧
      ∀ (j : Nat) (hj : j < s.columns.length), i < j → s.columns[j].name ≠ n

/-- Claim C8, counterexample: CREATE TABLE t (a INTEGER, a TEXT) succeeds (no
error recorded) and leaves a schema whose column sequence holds the name a
twice — Schema::addColumn never checks for duplicates and the parser does not
either, so column-name uniqueness is not an invariant. -/
theorem schema_duplicate_cex :
    ((engC8.database.tables "t").map (fun tb => tb.schema.columns.map Column.name)
        = some ["a", "a"]) ∧
    engC8.last_error = "" := by
  exact ⟨by decide, by decide⟩

/-- Claim C8, amended: schemas built by addColumn keep the name-to-index map
consistent in the weaker sense that each bound name points at the last column
of that name inside the sequence, but duplicate column names are accepted; the
duplicate-name CREATE TABLE leaves both columns stored and the map pointing at
index 1, the later one. -/
theorem schema_index_semantics :
    schemaIndexConsistent {} ∧
    (∀ (s : Schema) (c : Column), schemaIndexConsistent s →
        schemaIndexConsistent (s.addColumn c)) ∧
    ((engC8.database.tables "t").map
        (fun tb => (tb.schema.columns.map Column.name, tb.schema.column_index "a"))
      = some (["a", "a"], some 1)) := by
  refine ⟨?_, ?_, by decide⟩
  · intro n i h
    exact absurd h (by simp)
  · intro s c hs n i h
    simp only [Schema.addColumn] at h
    by_cases hn : n = c.name
    · rw [if_pos hn] at h
      injection h with h
      subst h
      have hlt : s.columns.length < (s.addColumn c).columns.length := by
        simp [Schema.addColumn]
      refine ⟨hlt, ?_, ?_⟩
      · show (s.columns ++ [c])[s.columns.length].name = n
        rw [List.getElem_concat_length]
        · exact hn.symm
        · rfl
      · intro j hj hij
        simp only [Schema.addColumn, List.length_append, List.length_singleton] at hj
        exact absurd hj (by omega)
    · rw [if_neg hn] at h
      obtain ⟨hlt, hname, hlast⟩ := hs n i h
      have hlt2 : i < (s.addColumn c).columns.length := by
        simp only [Schema.addColumn, List.length_append, List.length_singleton]
        omega
      refine ⟨hlt2, ?_, ?_⟩
      · show (s.columns ++ [c])[i].name = n
        rw [List.getElem_append_left hlt]
        exact hname
      · intro j hj hij
        simp only [Schema.addColumn, List.length_append, List.length_singleton] at hj
        by_cases hjl : j < s.columns.length
        · show (s.columns ++ [c])[j].name ≠ n
          rw [List.getElem_append_left hjl]
          exact hlast j hjl hij
        · have hje : j = s.columns.length := by omega
          subst hje
          show (s.columns ++ [c])[s.columns.length].name ≠ n
          rw [List.getElem_concat_length]
          · exact fun hcn => hn hcn.symm
          · rfl

/-- Claim C8, witness: the preservation part of the amended theorem applied at
the empty schema and a concrete column, its hypothesis discharged by the
theorem's own base case. -/
theorem schema_index_semantics_witness :
    schemaIndexConsistent (Schema.addColumn {} ⟨"a", DataType.INTEGER, true, false⟩) :=
  schema_index_semantics.2.1 {} ⟨"a", DataType.INTEGER, true, false⟩ schema_index_semantics.1

/-- Claim C9: the error discipline of QueryEngine::execute. The previous last
error never influences a call (it is cleared on entry); no call returns a
non-empty row list together with a non-empty error; a parse failure's message
is recorded verbatim with an empty result, and so is an execution failure's;
an empty token vector is its own recorded failure. The Lean model of execute
is a total function, which is the shallow form of the C++ catch-all: no
exception escapes execute. -/
theorem execute_error_discipline :
    (∀ (db : Database) (err : String) (sql : String),
        QueryEngine.execute ⟨db, err⟩ sql = QueryEngine.execute ⟨db, ""⟩ sql) ∧
    (∀ (eng : QueryEngine) (sql : String),
        (eng.execute sql).2 = [] ∨ (eng.execute sql).1.last_error = "") ∧
    (∀ (eng : QueryEngine) (sql : String) (e : String),
        parseStatement (tokenize sql) = Except.error e → tokenize sql ≠ [] →
        (eng.execute sql).1.last_error = e ∧ (eng.execute sql).2 = []) ∧
    (∀ (eng : QueryEngine) (sql : String) (stmt : Statement) (pst : ParserState) (e : String),
        parseStatement (tokenize sql) = Except.ok (stmt, pst) →
        (runStatement eng.database stmt).2 = Except.error e →
        (eng.execute sql).1.last_error = e ∧ (eng.execute sql).2 = []) ∧
    (∀ (eng : QueryEngine) (sql : String), tokenize sql = [] →
        (eng.execute sql).1.last_error = "No tokens found in SQL" ∧ (eng.execute sql).2 = []) := by
  refine ⟨?_, ?_, ?_, ?_, ?_⟩
  · intro db err sql
    rfl
  · intro eng sql
    simp only [QueryEngine.execute]
    by_cases hemp : (tokenize sql).isEmpty
    · simp [hemp]
    · simp only [hemp, if_neg, Bool.false_eq_true, not_false_iff]
      cases hp : parseStatement (tokenize sql) with
      | error e => simp
      | ok p =>
        rcases p with ⟨stmt, pst⟩
        rcases hr : runStatement eng.database stmt with ⟨db2, res⟩
        cases res with
        | error e => simp [hr]
        | ok rows => simp [hr]
  · intro eng sql e hp hne
    cases htok : tokenize sql with
    | nil => exact absurd htok hne
    | cons a l =>
      rw [htok] at hp
      constructor <;> simp [QueryEngine.execute, htok, hp]
  · intro eng sql stmt pst e hp hr
    cases htok : tokenize sql with
    | nil =>
      rw [htok] at hp
      rw [show parseStatement ([] : List Token)
            = Except.error "Parse error at token 0: Expected statement" from by decide] at hp
      exact absurd hp (by simp)
    | cons a l =>
      rw [htok] at hp
      rcases hrun : runStatement eng.database stmt with ⟨db2, res⟩
      rw [hrun] at hr
      simp only at hr
      subst hr
      constructor <;> simp [QueryEngine.execute, htok, hp, hrun]
  · intro eng sql htok
    constructor <;> simp [QueryEngine.execute, htok]

/-- Claim C9, witness: the parse-failure clause at the concrete input FOO,
with both hypotheses discharged by evaluation. -/
theorem execute_error_discipline_witness :
    (QueryEngine.execute {} "FOO ").1.last_error
        = "Parse error at token 0: Expected statement (got 'FOO')" ∧
    (QueryEngine.execute {} "FOO ").2 = [] :=
  execute_error_discipline.2.2.1 {} "FOO "
    "Parse error at token 0: Expected statement (got 'FOO')" (by decide) (by decide)

/-- A one-integer-column table t holding the row (4). -/
def engC10 : QueryEngine :=
  runScript ["CREATE TABLE t (a INTEGER) ", "INSERT INTO t VALUES (4) "]

/-- The index of the first unconsumed token after parsing one statement. -/
def parsedEndIndex (tokens : List Token) : Option Nat :=
  match parseStatement tokens with
  | .ok (_, pst) => some pst.current
  | .error _ => none

/-- The four tokens of the complete statement SELECT * FROM t. -/
def selectFromT : List Token :=
  [⟨.SELECT, "SELECT"⟩, ⟨.MULTIPLY, "*"⟩, ⟨.FROM, "FROM"⟩, ⟨.IDENTIFIER, "t"⟩]

/-- The statement those four tokens parse to. -/
def selectFromTStmt : Statement :=
  .selectStmt ⟨[.column "" "*"], "t", none, [], false, -1⟩

/-- Computation rule of the Except monad's bind on a success, used to unfold
the parser's do-blocks symbolically. -/
theorem exceptBindOk {ε α β : Type} (a : α) (f : α → Except ε β) :
    ((Except.ok a : Except ε α) >>= f) = f a := rfl

/-- Computation rule of the Except monad's bind on a failure. -/
theorem exceptBindError {ε α β : Type} (e : ε) (f : α → Except ε β) :
    ((Except.error e : Except ε α) >>= f) = Except.error e := rfl

/-- Computation rule of the Except monad's pure. -/
theorem exceptPure {ε α : Type} (a : α) : (pure a : Except ε α) = Except.ok a := rfl

/-- Claim C10, counterexample: SELECT * FROM t is a complete statement (the
parser consumes exactly its four tokens, leaving the EOF), and the input
SELECT * FROM t WHERE false is that statement followed by the extra tokens
WHERE false; but the call's result differs from running the statement alone —
the parser examines the trailing tokens and absorbs a leading WHERE into the
statement. -/
theorem trailing_tokens_cex :
    (engC10.execute "SELECT * FROM t ").2 = [[Value.intV 4]] ∧
    tokenize "SELECT * FROM t " = selectFromT ++ [⟨TokenType.EOF_TOKEN, ""⟩] ∧
    parsedEndIndex (tokenize "SELECT * FROM t ") = some 4 ∧
    tokenize "SELECT * FROM t WHERE false "
        = selectFromT ++ tokenize "WHERE false " ∧
    (engC10.execute "SELECT * FROM t WHERE false ").2 = [] ∧
    (engC10.execute "SELECT * FROM t WHERE false ").2
        ≠ (engC10.execute "SELECT * FROM t ").2 := by
  exact ⟨by decide, by decide, by decide, by decide, by decide, by decide⟩

/-- Claim C10, amended: the parser consumes exactly one statement and trailing
input is not an error — any trailing tokens whose first token cannot continue
an optional clause (is not WHERE, ORDER or LIMIT) leave the parse of
SELECT * FROM t unchanged, stopping at index 4, and a trailing second
statement is ignored outright: running SELECT * FROM t ; DROP TABLE t returns
the same rows as the statement alone, records no error, and leaves the table
in place — but a trailing WHERE, ORDER or LIMIT clause head is absorbed into
the statement rather than ignored. -/
theorem trailing_tokens_ignored :
    (∀ (extra : List Token) (f : Nat),
        (extra.getD 0 outOfRangeToken).type ≠ TokenType.WHERE →
        (extra.getD 0 outOfRangeToken).type ≠ TokenType.ORDER →
        (extra.getD 0 outOfRangeToken).type ≠ TokenType.LIMIT →
        parseStatementF (f + 1) ⟨selectFromT ++ extra, 0⟩
          = .ok (selectFromTStmt, ⟨selectFromT ++ extra, 4⟩)) ∧
    (engC10.execute "SELECT * FROM t ; DROP TABLE t ").2
        = (engC10.execute "SELECT * FROM t ").2 ∧
    (engC10.execute "SELECT * FROM t ; DROP TABLE t ").1.last_error = "" ∧
    tableRowsOf (engC10.execute "SELECT * FROM t ; DROP TABLE t ").1 "t"
        = some [[Value.intV 4]] := by
  refine ⟨?_, by decide, by decide, by decide⟩
  intro extra f h1 h2 h3
  have hpk : (⟨selectFromT ++ extra, 4⟩ : ParserState).peek
      = extra.getD 0 outOfRangeToken := rfl
  have hchk : ∀ (ty : TokenType), (extra.getD 0 outOfRangeToken).type ≠ ty →
      (⟨selectFromT ++ extra, 4⟩ : ParserState).check ty = false := by
    intro ty hty
    unfold ParserState.check
    by_cases he : (⟨selectFromT ++ extra, 4⟩ : ParserState).isAtEnd = true
    · rw [if_pos he]
    · rw [if_neg he, hpk]
      exact decide_eq_false hty
  have hW : (⟨selectFromT ++ extra, 4⟩ : ParserState).matchToken TokenType.WHERE
      = (false, ⟨selectFromT ++ extra, 4⟩) := by
    simp [ParserState.matchToken, hchk TokenType.WHERE h1]
  have hO : (⟨selectFromT ++ extra, 4⟩ : ParserState).matchToken TokenType.ORDER
      = (false, ⟨selectFromT ++ extra, 4⟩) := by
    simp [ParserState.matchToken, hchk TokenType.ORDER h2]
  have hL : (⟨selectFromT ++ extra, 4⟩ : ParserState).matchToken TokenType.LIMIT
      = (false, ⟨selectFromT ++ extra, 4⟩) := by
    simp [ParserState.matchToken, hchk TokenType.LIMIT h3]
  have m0 : (⟨selectFromT ++ extra, 0⟩ : ParserState).matchToken TokenType.SELECT
      = (true, ⟨selectFromT ++ extra, 1⟩) := rfl
  have m1 : (⟨selectFromT ++ extra, 1⟩ : ParserState).matchToken TokenType.MULTIPLY
      = (true, ⟨selectFromT ++ extra, 2⟩) := rfl
  have m2 : (⟨selectFromT ++ extra, 2⟩ : ParserState).matchToken TokenType.COMMA
      = (false, ⟨selectFromT ++ extra, 2⟩) := rfl
  have m3 : (⟨selectFromT ++ extra, 2⟩ : ParserState).consume TokenType.FROM
      "Expected 'FROM' after SELECT list" = .ok ⟨selectFromT ++ extra, 3⟩ := rfl
  have m4 : (⟨selectFromT ++ extra, 3⟩ : ParserState).consume TokenType.IDENTIFIER
      "Expected table name after FROM" = .ok ⟨selectFromT ++ extra, 4⟩ := rfl
  have mp : (⟨selectFromT ++ extra, 4⟩ : ParserState).previous
      = ⟨TokenType.IDENTIFIER, "t"⟩ := rfl
  simp [parseStatementF, parseSelectStatement, parseSelectItems, selectFromTStmt,
    m0, m1, m2, m3, m4, mp, hW, hO, hL, exceptBindOk, exceptBindError, exceptPure]

end SqlEngine
